import Mathlib

/-!
Verification of the F1 analytics engine (`src/data_processing/analytics.py`).

The analytics engine issues read-only SQL queries against a SQLite store and
post-processes the results with dataframe arithmetic.  This file gives a
shallow embedding of the store's data model and of every public operation of
the `F1Analytics` class, and proves (or refutes) the specification's claims
about them.

Modelling conventions:
* SQL `INTEGER` columns are `Int`; nullable columns are `Option Int`.
* `DECIMAL` columns (`points`) are `ℚ`; SQL division and AVG are exact
  rational arithmetic.
* `DATE` columns are `Int` (a day number): the only use the engine makes of
  dates is ordering.
* A query result is a `List` of row structures, in a deterministic order;
  where SQLite leaves an order unspecified (GROUP BY output order, ties
  under ORDER BY, nested-loop join order) the model fixes one concrete
  order and, where a claim depends on the unspecified part, a separate
  relational specification captures exactly what the SQL guarantees.
* Joins are nested flat-maps over the table lists; `GROUP BY` keeps group
  keys in order of first occurrence.
-/

/-- Insert `x` into `l`, placing it after every element `y` with `le y x`.
Used to model SQL ORDER BY (structural, hence kernel-computable). -/
def insertLe {α : Type} (le : α → α → Bool) (x : α) : List α → List α
  | [] => [x]
  | y :: ys => if le y x then y :: insertLe le x ys else x :: y :: ys

/-- Insertion sort by a boolean less-or-equal test; models SQL ORDER BY. -/
def sortByLe {α : Type} (le : α → α → Bool) : List α → List α
  | [] => []
  | x :: xs => insertLe le x (sortByLe le xs)

/-- Keep the first occurrence of every element, dropping later duplicates.
Models the set of GROUP BY keys, in order of first appearance. -/
def dedupFirst {α : Type} [DecidableEq α] : List α → List α
  | [] => []
  | x :: xs => x :: ((dedupFirst xs).filter (fun y => y ≠ x))

/-- SQL `AVG` over a list of rationals: `NULL` (none) on the empty list. -/
def avgQ (l : List ℚ) : Option ℚ :=
  if l.isEmpty then none else some (l.sum / (l.length : ℚ))

/-- SQL comparison `position <= k` on a nullable column: `NULL` compares
false (the CASE falls through to ELSE 0). -/
def posLe (o : Option Int) (k : Int) : Bool :=
  match o with
  | some p => p ≤ k
  | none => false

/-! Data model: the tables of the relational store that the analytics
engine reads (schema from `database_setup.py`).  Only the columns the
engine's queries touch are carried. -/

structure Driver where
  driver_id : Int
  forename : String
  surname : String
  code : String
  nationality : String
deriving DecidableEq

structure Constructor where
  constructor_id : Int
  name : String
  nationality : String
deriving DecidableEq

structure Circuit where
  circuit_id : Int
  name : String
  country : String
deriving DecidableEq

structure Race where
  race_id : Int
  year : Int
  round : Int
  circuit_id : Int
  name : String
  date : Int
deriving DecidableEq

structure RaceResult where
  race_id : Int
  driver_id : Int
  constructor_id : Int
  grid : Option Int
  position : Option Int
  points : ℚ
  fastest_lap : Option Int
deriving DecidableEq

structure QualifyingResult where
  race_id : Int
  driver_id : Int
  constructor_id : Int
  position : Option Int
deriving DecidableEq

/-- The relational store.  The analytics engine only ever reads it. -/
structure DB where
  drivers : List Driver
  constructors : List Constructor
  circuits : List Circuit
  races : List Race
  race_results : List RaceResult
  qualifying_results : List QualifyingResult
deriving DecidableEq

/-! Driver performance metrics (`get_driver_performance_metrics`).

The main query joins `race_results` with `drivers` and `constructors`,
keeps only rows with a non-null `position`, groups by
`(d.driver_id, d.forename, d.surname, d.code, d.nationality, c.name)`
— note the constructor name is part of the grouping key — aggregates,
and orders by `total_points DESC`.  Pandas post-processing then adds the
three rate columns and merges (left, on `driver_id`) a second query's
position-consistency column.  The query never references
`qualifying_results`. -/

/-- One row of the `FROM race_results rr JOIN drivers d JOIN constructors c`
join, before grouping. -/
structure DriverJoinRow where
  rr : RaceResult
  d : Driver
  c : Constructor
deriving DecidableEq

/-- The joined and `WHERE rr.position IS NOT NULL`-filtered row set of the
main driver-performance query. -/
def driverPerfJoin (db : DB) : List DriverJoinRow :=
  (db.race_results.flatMap (fun rr =>
    (db.drivers.filter (fun d => d.driver_id = rr.driver_id)).flatMap (fun d =>
      (db.constructors.filter (fun c => c.constructor_id = rr.constructor_id)).map
        (fun c => ⟨rr, d, c⟩)))).filter
    (fun j => j.rr.position ≠ none)

/-- The GROUP BY key of the main driver-performance query. -/
structure DriverKey where
  driver_id : Int
  forename : String
  surname : String
  code : String
  nationality : String
  constructor_name : String
deriving DecidableEq

def driverKeyOf (j : DriverJoinRow) : DriverKey :=
  ⟨j.d.driver_id, j.d.forename, j.d.surname, j.d.code, j.d.nationality, j.c.name⟩

/-- One output row of `get_driver_performance_metrics`, including the three
rate columns pandas adds and the merged consistency column.

The source stores `position_consistency = ROUND(SQRT(v), 2)` where `v` is
the population variance of the driver's finishing positions; the square
root is an irrational-valued presentation step, so the model carries `v`
itself (which determines the source value) as `position_consistency_sq`. -/
structure DriverPerfRow where
  driver_id : Int
  driver_name : String
  code : String
  nationality : String
  constructor_name : String
  races_completed : Nat
  total_points : ℚ
  avg_points_per_race : Option ℚ
  avg_position : Option ℚ
  best_position : Option Int
  worst_position : Option Int
  wins : Nat
  podiums : Nat
  points_finishes : Nat
  avg_grid_position : Option ℚ
  avg_grid_gain : Option ℚ
  fastest_laps : Nat
  podium_rate : ℚ
  points_rate : ℚ
  win_rate : ℚ
  position_consistency_sq : Option ℚ
deriving DecidableEq

/-- Aggregate one group of the main query, plus the per-row pandas rate
columns (podium_rate set to podiums over races_completed times 100, and
likewise for points and wins ).  `races_completed = COUNT(rr.race_id)`
counts every group row since `race_id` is NOT NULL. -/
def driverAgg (rows : List DriverJoinRow) (k : DriverKey) : DriverPerfRow :=
  let g := rows.filter (fun j => driverKeyOf j = k)
  let races := g.length
  let pts := g.map (fun j => j.rr.points)
  let poss : List Int := g.filterMap (fun j => j.rr.position)
  let grids : List Int := g.filterMap (fun j => j.rr.grid)
  let avgPos := avgQ (poss.map (fun p => (p : ℚ)))
  let avgGrid := avgQ (grids.map (fun p => (p : ℚ)))
  let wins := g.countP (fun j => j.rr.position = some 1)
  let podiums := g.countP (fun j => posLe j.rr.position 3)
  let pfin := g.countP (fun j => posLe j.rr.position 10)
  { driver_id := k.driver_id
    driver_name := k.forename ++ " " ++ k.surname
    code := k.code
    nationality := k.nationality
    constructor_name := k.constructor_name
    races_completed := races
    total_points := pts.sum
    avg_points_per_race := avgQ pts
    avg_position := avgPos
    best_position := poss.min?
    worst_position := poss.max?
    wins := wins
    podiums := podiums
    points_finishes := pfin
    avg_grid_position := avgGrid
    avg_grid_gain :=
      match avgGrid, avgPos with
      | some a, some b => some (a - b)
      | _, _ => none
    fastest_laps := g.countP (fun j => j.rr.fastest_lap.isSome)
    podium_rate := (podiums : ℚ) / (races : ℚ) * 100
    points_rate := (pfin : ℚ) / (races : ℚ) * 100
    win_rate := (wins : ℚ) / (races : ℚ) * 100
    position_consistency_sq := none }

/-- GROUP BY keys of the main query, in first-occurrence order. -/
def driverPerfKeys (db : DB) : List DriverKey :=
  dedupFirst ((driverPerfJoin db).map driverKeyOf)

/-- Result of the main driver-performance query before ORDER BY. -/
def driverPerfGrouped (db : DB) : List DriverPerfRow :=
  (driverPerfKeys db).map (driverAgg (driverPerfJoin db))

/-- Result of the main driver-performance query (first `read_sql_query`):
grouped rows ordered by `total_points DESC`. -/
def driverPerfMain (db : DB) : List DriverPerfRow :=
  sortByLe (fun a b => b.total_points ≤ a.total_points) (driverPerfGrouped db)

/-- The consistency query (second `read_sql_query`): per driver with at
least one non-null finishing position, the population variance of those
positions (the source then presents `ROUND(SQRT(v),2)`).  One row per
`driver_id` (it groups by `driver_id`). -/
def consistencyQuery (db : DB) : List (Int × ℚ) :=
  (dedupFirst ((db.race_results.filter
      (fun rr => rr.position ≠ none)).map (fun rr => rr.driver_id))).map
    (fun did =>
      let ps := ((db.race_results.filter
        (fun rr => rr.driver_id = did ∧ rr.position ≠ none)).filterMap
          (fun rr => rr.position)).map (fun p => (p : ℚ))
      let n : ℚ := (ps.length : ℚ)
      let avg := ps.sum / n
      (did, (ps.map (fun p => (p - avg) * (p - avg))).sum / n))

/-- The pandas left merge of the consistency frame on driver_id with the
how left option: each left row gains the consistency value of its driver, or
none when the right side has no such driver.  The right side has at most
one row per `driver_id`, so the merge is row- and order-preserving. -/
def consLookup (cons : List (Int × ℚ)) (r : DriverPerfRow) : DriverPerfRow :=
  { r with position_consistency_sq :=
      (cons.find? (fun p => p.1 = r.driver_id)).map (fun p => p.2) }

def mergeConsistency (rows : List DriverPerfRow) (cons : List (Int × ℚ)) :
    List DriverPerfRow :=
  rows.map (consLookup cons)

/-- The operation `get_driver_performance_metrics` of `F1Analytics`. -/
def get_driver_performance_metrics (db : DB) : List DriverPerfRow :=
  mergeConsistency (driverPerfMain db) (consistencyQuery db)

/-! Constructor performance (`get_constructor_performance`): analogous
aggregation, joining `constructors` with `race_results`, filtering
non-null positions, grouping by `(constructor_id, name, nationality)`,
ordering by `total_points DESC`, with pandas rate columns over
`total_entries`. -/

structure ConstructorJoinRow where
  c : Constructor
  rr : RaceResult
deriving DecidableEq

def constructorPerfJoin (db : DB) : List ConstructorJoinRow :=
  (db.constructors.flatMap (fun c =>
    (db.race_results.filter (fun rr => rr.constructor_id = c.constructor_id)).map
      (fun rr => ⟨c, rr⟩))).filter
    (fun j => j.rr.position ≠ none)

structure ConstructorKey where
  constructor_id : Int
  name : String
  nationality : String
deriving DecidableEq

def constructorKeyOf (j : ConstructorJoinRow) : ConstructorKey :=
  ⟨j.c.constructor_id, j.c.name, j.c.nationality⟩

structure ConstructorPerfRow where
  constructor_id : Int
  constructor_name : String
  nationality : String
  drivers_used : Nat
  total_entries : Nat
  total_points : ℚ
  avg_points_per_entry : Option ℚ
  avg_position : Option ℚ
  wins : Nat
  podiums : Nat
  points_finishes : Nat
  fastest_laps : Nat
  podium_rate : ℚ
  points_rate : ℚ
  win_rate : ℚ
deriving DecidableEq

/-- Aggregate one constructor group; `drivers_used = COUNT(DISTINCT
rr.driver_id)`, `total_entries = COUNT(rr.race_id)` counts every row. -/
def constructorAgg (rows : List ConstructorJoinRow) (k : ConstructorKey) :
    ConstructorPerfRow :=
  let g := rows.filter (fun j => constructorKeyOf j = k)
  let entries := g.length
  let pts := g.map (fun j => j.rr.points)
  let poss : List Int := g.filterMap (fun j => j.rr.position)
  let wins := g.countP (fun j => j.rr.position = some 1)
  let podiums := g.countP (fun j => posLe j.rr.position 3)
  let pfin := g.countP (fun j => posLe j.rr.position 10)
  { constructor_id := k.constructor_id
    constructor_name := k.name
    nationality := k.nationality
    drivers_used := (dedupFirst (g.map (fun j => j.rr.driver_id))).length
    total_entries := entries
    total_points := pts.sum
    avg_points_per_entry := avgQ pts
    avg_position := avgQ (poss.map (fun p => (p : ℚ)))
    wins := wins
    podiums := podiums
    points_finishes := pfin
    fastest_laps := g.countP (fun j => j.rr.fastest_lap.isSome)
    podium_rate := (podiums : ℚ) / (entries : ℚ) * 100
    points_rate := (pfin : ℚ) / (entries : ℚ) * 100
    win_rate := (wins : ℚ) / (entries : ℚ) * 100 }

def constructorPerfKeys (db : DB) : List ConstructorKey :=
  dedupFirst ((constructorPerfJoin db).map constructorKeyOf)

def constructorPerfGrouped (db : DB) : List ConstructorPerfRow :=
  (constructorPerfKeys db).map (constructorAgg (constructorPerfJoin db))

/-- The operation `get_constructor_performance` of `F1Analytics`. -/
def get_constructor_performance (db : DB) : List ConstructorPerfRow :=
  sortByLe (fun a b => b.total_points ≤ a.total_points) (constructorPerfGrouped db)

/-! Race analysis (`get_race_analysis`).

`races JOIN circuits`, then three LEFT JOINs: all `race_results` of the
race, the race's `position = 1` rows (aliased `winner_data`), and the
winner's driver and constructor rows.  Grouped by the race plus all
winner-side columns, ordered by `date DESC`.

The SELECT reads `rr.points as winner_points` — a bare column of the
participants side under GROUP BY, which SQLite fills from an unspecified
row of the group (the model fixes the first joined row of the group);
`winner_data.points`, though part of the GROUP BY key, is never selected. -/

/-- LEFT JOIN: an empty right side contributes a single all-NULL row. -/
def leftOpt {α : Type} (l : List α) : List (Option α) :=
  if l.isEmpty then [none] else l.map some

/-- LEFT JOIN whose ON condition references a possibly-NULL left column:
a NULL left side matches nothing, giving a single NULL row. -/
def leftJoinOn {α β : Type} (o : Option α) (l : List β) (cond : α → β → Bool) :
    List (Option β) :=
  match o with
  | none => [none]
  | some a => leftOpt (l.filter (cond a))

structure RAJoinRow where
  r : Race
  c : Circuit
  rr : Option RaceResult
  w : Option RaceResult
  wd : Option Driver
  wc : Option Constructor
deriving DecidableEq

def raJoin (db : DB) : List RAJoinRow :=
  db.races.flatMap (fun r =>
    (db.circuits.filter (fun c => c.circuit_id = r.circuit_id)).flatMap (fun c =>
      (leftOpt (db.race_results.filter (fun rr => rr.race_id = r.race_id))).flatMap
        (fun rro =>
          (leftOpt (db.race_results.filter
              (fun w => w.race_id = r.race_id ∧ w.position = some 1))).flatMap
            (fun wo =>
              (leftJoinOn wo db.drivers
                  (fun w d => d.driver_id = w.driver_id)).flatMap (fun wdo =>
                (leftJoinOn wo db.constructors
                    (fun w c2 => c2.constructor_id = w.constructor_id)).map
                  (fun wco => ⟨r, c, rro, wo, wdo, wco⟩))))))

/-- The GROUP BY key: `r.race_id, r.name, r.date, c.name, c.country,
d.forename, d.surname, winner_constructor.name, winner_data.points`. -/
structure RAKey where
  race_id : Int
  race_name : String
  date : Int
  circuit_name : String
  country : String
  w_forename : Option String
  w_surname : Option String
  wc_name : Option String
  w_points : Option ℚ
deriving DecidableEq

def raKeyOf (j : RAJoinRow) : RAKey :=
  ⟨j.r.race_id, j.r.name, j.r.date, j.c.name, j.c.country,
    j.wd.map (fun d => d.forename), j.wd.map (fun d => d.surname),
    j.wc.map (fun c => c.name), j.w.map (fun w => w.points)⟩

structure RaceAnalysisRow where
  race_id : Int
  race_name : String
  date : Int
  circuit_name : String
  country : String
  participants : Nat
  avg_finishing_position : Option ℚ
  winner : Option String
  winning_constructor : Option String
  winner_points : Option ℚ
deriving DecidableEq

/-- Aggregate one race-analysis group.  `participants =
COUNT(rr.driver_id)` counts the non-NULL participant rows;
the winner column, the SQL concatenation of forename, a space and
surname, is NULL when either side is NULL; `winner_points` is the bare `rr.points`, taken from the group's
first joined row (an unspecified row in SQLite). -/
def raAgg (rows : List RAJoinRow) (k : RAKey) : RaceAnalysisRow :=
  let g := rows.filter (fun j => raKeyOf j = k)
  let poss : List Int := g.filterMap (fun j => j.rr.bind (fun rr => rr.position))
  { race_id := k.race_id
    race_name := k.race_name
    date := k.date
    circuit_name := k.circuit_name
    country := k.country
    participants := g.countP (fun j => j.rr.isSome)
    avg_finishing_position := avgQ (poss.map (fun p => (p : ℚ)))
    winner :=
      match k.w_forename, k.w_surname with
      | some f, some s => some (f ++ " " ++ s)
      | _, _ => none
    winning_constructor := k.wc_name
    winner_points := g.head?.bind (fun j => j.rr.map (fun rr => rr.points)) }

def raKeys (db : DB) : List RAKey :=
  dedupFirst ((raJoin db).map raKeyOf)

/-- The operation `get_race_analysis` of `F1Analytics`: grouped rows
ordered by `r.date DESC`. -/
def get_race_analysis (db : DB) : List RaceAnalysisRow :=
  sortByLe (fun a b => b.date ≤ a.date) ((raKeys db).map (raAgg (raJoin db)))

/-! Head-to-head comparison (`get_head_to_head_comparison`).

`races` inner-joined twice with `race_results` (once per driver id) and
twice with `drivers`, keeping only rows where both positions are non-null,
ordered by date.  Pandas then builds a summary dict; when the per-race
table is empty the summary is the empty dict, modelled as `none`. -/

structure H2HRow where
  race_name : String
  date : Int
  driver1_name : String
  driver1_position : Int
  driver1_points : ℚ
  driver2_name : String
  driver2_position : Int
  driver2_points : ℚ
  winner : Int
deriving DecidableEq

/-- The joined, position-filtered rows of the head-to-head query.  The
`WHERE` guarantees both positions non-null, so the row stores the unwrapped
values; the CASE winner flag is 1 / 2 / 0 exactly as in the SQL. -/
def h2hJoin (db : DB) (driver1_id driver2_id : Int) : List H2HRow :=
  db.races.flatMap (fun r =>
    (db.race_results.filter
        (fun rr1 => rr1.race_id = r.race_id ∧ rr1.driver_id = driver1_id)).flatMap
      (fun rr1 =>
        (db.race_results.filter
            (fun rr2 => rr2.race_id = r.race_id ∧ rr2.driver_id = driver2_id)).flatMap
          (fun rr2 =>
            (db.drivers.filter (fun d => d.driver_id = rr1.driver_id)).flatMap
              (fun d1 =>
                (db.drivers.filter (fun d => d.driver_id = rr2.driver_id)).filterMap
                  (fun d2 =>
                    match rr1.position, rr2.position with
                    | some p1, some p2 =>
                      some { race_name := r.name
                             date := r.date
                             driver1_name := d1.forename ++ " " ++ d1.surname
                             driver1_position := p1
                             driver1_points := rr1.points
                             driver2_name := d2.forename ++ " " ++ d2.surname
                             driver2_position := p2
                             driver2_points := rr2.points
                             winner :=
                               if p1 < p2 then 1 else if p1 > p2 then 2 else 0 }
                    | _, _ => none)))))

/-- The summary dict built by pandas from a non-empty per-race table. -/
structure H2HStats where
  total_races : Nat
  driver1_wins : Nat
  driver2_wins : Nat
  ties : Nat
  driver1_avg_position : ℚ
  driver2_avg_position : ℚ
  driver1_total_points : ℚ
  driver2_total_points : ℚ
deriving DecidableEq

/-- The operation `get_head_to_head_comparison db a b`: the per-race table
ordered by date, and the summary (`none` models the empty dict `{}`
returned when the table is empty). -/
def get_head_to_head_comparison (db : DB) (driver1_id driver2_id : Int) :
    List H2HRow × Option H2HStats :=
  let rows := sortByLe (fun a b => a.date ≤ b.date) (h2hJoin db driver1_id driver2_id)
  (rows,
    if rows.isEmpty then none
    else some
      { total_races := rows.length
        driver1_wins := rows.countP (fun x => x.winner = 1)
        driver2_wins := rows.countP (fun x => x.winner = 2)
        ties := rows.countP (fun x => x.winner = 0)
        driver1_avg_position :=
          ((rows.map (fun x => (x.driver1_position : ℚ))).sum / (rows.length : ℚ))
        driver2_avg_position :=
          ((rows.map (fun x => (x.driver2_position : ℚ))).sum / (rows.length : ℚ))
        driver1_total_points := (rows.map (fun x => x.driver1_points)).sum
        driver2_total_points := (rows.map (fun x => x.driver2_points)).sum })

/-! Championship progression (`get_championship_progression`).

`races JOIN race_results JOIN drivers`, with a windowed running sum
`SUM(rr.points) OVER (PARTITION BY d.driver_id ORDER BY r.round ROWS
UNBOUNDED PRECEDING)`, finally ordered by `(r.round, cumulative DESC)`.

The window orders partition rows only by `round`; among equal rounds the
peer order is unspecified in SQLite and the model uses the (stable)
insertion-sort order of the join row order.  The row type carries
`driver_id` for specification purposes; the SQL projects only the
driver's display name. -/

structure ChampJoinRow where
  r : Race
  rr : RaceResult
  d : Driver
deriving DecidableEq

def champJoin (db : DB) : List ChampJoinRow :=
  db.races.flatMap (fun r =>
    (db.race_results.filter (fun rr => rr.race_id = r.race_id)).flatMap (fun rr =>
      (db.drivers.filter (fun d => d.driver_id = rr.driver_id)).map
        (fun d => ⟨r, rr, d⟩)))

structure ChampRow where
  driver_id : Int
  round : Int
  race_name : String
  date : Int
  driver_name : String
  race_points : ℚ
  cumulative_points : ℚ
deriving DecidableEq

/-- Running (`ROWS UNBOUNDED PRECEDING`) sums over one partition already in
window order, starting from accumulator `acc`. -/
def champRunning : List ChampJoinRow → ℚ → List ChampRow
  | [], _ => []
  | j :: js, acc =>
    let c := acc + j.rr.points
    { driver_id := j.d.driver_id
      round := j.r.round
      race_name := j.r.name
      date := j.r.date
      driver_name := j.d.forename ++ " " ++ j.d.surname
      race_points := j.rr.points
      cumulative_points := c } :: champRunning js c

/-- The rows of the partition of driver `did`, in join order. -/
def champPartition (db : DB) (did : Int) : List ChampJoinRow :=
  (champJoin db).filter (fun j => j.d.driver_id = did)

/-- One partition's output rows: partition rows sorted by `round`, with the
running cumulative sum. -/
def champPartitionRows (db : DB) (did : Int) : List ChampRow :=
  champRunning (sortByLe (fun a b => a.r.round ≤ b.r.round) (champPartition db did)) 0

def championshipDriverIds (db : DB) : List Int :=
  dedupFirst ((champJoin db).map (fun j => j.d.driver_id))

def champRowsAll (db : DB) : List ChampRow :=
  (championshipDriverIds db).flatMap (fun did => champPartitionRows db did)

/-- The operation `get_championship_progression` of `F1Analytics`:
all partitions' rows, ordered by `r.round` then `cumulative_points DESC`. -/
def get_championship_progression (db : DB) : List ChampRow :=
  sortByLe
    (fun a b =>
      a.round < b.round ∨ (a.round = b.round ∧ b.cumulative_points ≤ a.cumulative_points))
    (champRowsAll db)

/-! Circuit performance (`get_circuit_performance`).

`circuits JOIN races JOIN race_results`, LEFT JOINed with two ranking
subqueries: per circuit, the per-driver (resp. per-constructor) win counts
over `position = 1` rows, ranked by `ROW_NUMBER() OVER (PARTITION BY
circuit_id ORDER BY COUNT(*) DESC)`, keeping rank 1.  Ties in most-wins
are broken arbitrarily; the model ranks by the deterministic sort order.
No claim constrains this operation's content; it is embedded so that the
frame property covers every operation. -/

structure CircuitWinRow where
  circuit_id : Int
  winner_id : Int
  wins : Nat
deriving DecidableEq

/-- The per-circuit win counts of one competitor kind (`driver_id` or
`constructor_id`, projected by `f`), keeping only the top-ranked row of
each circuit. -/
def circuitTopWins (db : DB) (f : RaceResult → Int) : List CircuitWinRow :=
  let winRows := db.races.flatMap (fun r =>
    (db.race_results.filter
        (fun rr => rr.race_id = r.race_id ∧ rr.position = some 1)).map
      (fun rr => (r.circuit_id, f rr)))
  let keys := dedupFirst winRows
  let counted := keys.map (fun k =>
    { circuit_id := k.1, winner_id := k.2,
      wins := winRows.countP (fun p => p = k) : CircuitWinRow })
  let circuits := dedupFirst (counted.map (fun row => row.circuit_id))
  circuits.filterMap (fun cid =>
    (sortByLe (fun a b => b.wins ≤ a.wins)
      (counted.filter (fun row => row.circuit_id = cid))).head?)

structure CircuitJoinRow where
  c : Circuit
  r : Race
  rr : RaceResult
  dw : Option CircuitWinRow
  wd : Option Driver
  cw : Option CircuitWinRow
  wc : Option Constructor
deriving DecidableEq

def circuitJoin (db : DB) : List CircuitJoinRow :=
  let dwins := circuitTopWins db (fun rr => rr.driver_id)
  let cwins := circuitTopWins db (fun rr => rr.constructor_id)
  db.circuits.flatMap (fun c =>
    (db.races.filter (fun r => r.circuit_id = c.circuit_id)).flatMap (fun r =>
      (db.race_results.filter (fun rr => rr.race_id = r.race_id)).flatMap (fun rr =>
        (leftOpt (dwins.filter (fun w => w.circuit_id = c.circuit_id))).flatMap
          (fun dwo =>
            (leftJoinOn dwo db.drivers
                (fun w d => d.driver_id = w.winner_id)).flatMap (fun wdo =>
              (leftOpt (cwins.filter (fun w => w.circuit_id = c.circuit_id))).flatMap
                (fun cwo =>
                  (leftJoinOn cwo db.constructors
                      (fun w k => k.constructor_id = w.winner_id)).map
                    (fun wco => ⟨c, r, rr, dwo, wdo, cwo, wco⟩)))))))

structure CircuitKey where
  circuit_id : Int
  circuit_name : String
  country : String
  w_forename : Option String
  w_surname : Option String
  driver_wins : Option Nat
  wc_name : Option String
  constructor_wins : Option Nat
deriving DecidableEq

def circuitKeyOf (j : CircuitJoinRow) : CircuitKey :=
  ⟨j.c.circuit_id, j.c.name, j.c.country,
    j.wd.map (fun d => d.forename), j.wd.map (fun d => d.surname),
    j.dw.map (fun w => w.wins),
    j.wc.map (fun k => k.name), j.cw.map (fun w => w.wins)⟩

structure CircuitPerfRow where
  circuit_name : String
  country : String
  total_races : Nat
  avg_position : Option ℚ
  most_successful_driver : Option String
  driver_wins_at_circuit : Option Nat
  most_successful_constructor : Option String
  constructor_wins_at_circuit : Option Nat
deriving DecidableEq

def circuitAgg (rows : List CircuitJoinRow) (k : CircuitKey) : CircuitPerfRow :=
  let g := rows.filter (fun j => circuitKeyOf j = k)
  let poss : List Int := g.filterMap (fun j => j.rr.position)
  { circuit_name := k.circuit_name
    country := k.country
    total_races := g.length
    avg_position := avgQ (poss.map (fun p => (p : ℚ)))
    most_successful_driver :=
      match k.w_forename, k.w_surname with
      | some f, some s => some (f ++ " " ++ s)
      | _, _ => none
    driver_wins_at_circuit := k.driver_wins
    most_successful_constructor := k.wc_name
    constructor_wins_at_circuit := k.constructor_wins }

/-- The operation `get_circuit_performance` of `F1Analytics`: grouped rows
ordered by `total_races DESC`. -/
def get_circuit_performance (db : DB) : List CircuitPerfRow :=
  sortByLe (fun a b => b.total_races ≤ a.total_races)
    ((dedupFirst ((circuitJoin db).map circuitKeyOf)).map (circuitAgg (circuitJoin db)))

/-! Construction of the engine (`F1Analytics.__init__`).

With `db_path=None` the constructor walks parent directories of the module
looking for `data/f1_database.db`, falling back to the filesystem root;
either way it then checks `os.path.exists(self.db_path)` and raises
`FileNotFoundError` before any connection is opened or query is run (the
queries live in the `get_*` methods, which require a constructed engine). -/

/-- The filesystem, as the set of existing file paths. -/
structure FileSystem where
  files : List String
deriving DecidableEq

def pathExists (fs : FileSystem) (p : String) : Bool :=
  fs.files.contains p

/-- The fixed relative location of the backing store. -/
def dbRelPath : String := "data/f1_database.db"

def joinPath (dir rest : String) : String := dir ++ "/" ++ rest

/-- The parent-directory walk: `ancestors` is the chain of directories from
the module's directory upward, excluding the root; the first one containing
`data/f1_database.db` wins, else the walk ends at the root. -/
def findProjectRoot (fs : FileSystem) : List String → String
  | [] => ""
  | dir :: rest =>
    if pathExists fs (joinPath dir dbRelPath) then dir else findProjectRoot fs rest

inductive AnalyticsError where
  | fileNotFound (path : String)
deriving DecidableEq

structure F1Analytics where
  db_path : String
deriving DecidableEq

/-- The store path the constructor settles on before its existence check. -/
def resolvedDbPath (fs : FileSystem) (db_path : Option String)
    (ancestors : List String) : String :=
  match db_path with
  | none => joinPath (findProjectRoot fs ancestors) dbRelPath
  | some p => p

/-- The constructor `F1Analytics.__init__`: resolve the path, then fail
with `FileNotFoundError` when it does not exist.  It takes no store value:
construction issues no query. -/
def F1Analytics.init (fs : FileSystem) (db_path : Option String)
    (ancestors : List String) : Except AnalyticsError F1Analytics :=
  let path := resolvedDbPath fs db_path ancestors
  if pathExists fs path then Except.ok { db_path := path }
  else Except.error (AnalyticsError.fileNotFound path)

/-! Store-level effect of each operation.

Every `get_*` method opens a connection, runs one or two SQL statements
through `pd.read_sql_query`, closes the connection and returns.  To state
the frame property, statements carry their effect on the store: a
`select` computes rows and leaves the store unchanged, a `write`
transforms it.  Each operation below is the exact statement sequence the
method issues — all of them `select`s of the query functions defined
above. -/

inductive SqlStmt (ρ : Type) where
  | select (q : DB → List ρ)
  | write (w : DB → DB)

/-- Execute one statement against the store. -/
def execStmt {ρ : Type} (db : DB) : SqlStmt ρ → DB × List ρ
  | SqlStmt.select q => (db, q db)
  | SqlStmt.write w => (w db, [])

/-- `get_driver_performance_metrics` as a store transaction: the main
query, then the consistency query, then the pandas merge. -/
def driverPerfCall (db : DB) : DB × List DriverPerfRow :=
  let s1 := execStmt db (SqlStmt.select driverPerfMain)
  let s2 := execStmt s1.1 (SqlStmt.select (fun db2 => consistencyQuery db2))
  (s2.1, mergeConsistency s1.2 s2.2)

def constructorPerfCall (db : DB) : DB × List ConstructorPerfRow :=
  let s := execStmt db (SqlStmt.select get_constructor_performance)
  (s.1, s.2)

def raceAnalysisCall (db : DB) : DB × List RaceAnalysisRow :=
  let s := execStmt db (SqlStmt.select get_race_analysis)
  (s.1, s.2)

def headToHeadCall (db : DB) (driver1_id driver2_id : Int) :
    DB × (List H2HRow × Option H2HStats) :=
  let s := execStmt db (SqlStmt.select (fun db2 => h2hJoin db2 driver1_id driver2_id))
  (s.1, get_head_to_head_comparison s.1 driver1_id driver2_id)

def championshipCall (db : DB) : DB × List ChampRow :=
  let s := execStmt db (SqlStmt.select get_championship_progression)
  (s.1, s.2)

def circuitPerfCall (db : DB) : DB × List CircuitPerfRow :=
  let s := execStmt db (SqlStmt.select get_circuit_performance)
  (s.1, s.2)

/-! Relational specification of the main query's ORDER BY.

SQLite guarantees only that ORDER BY output is a permutation of the result
set sorted by the key; the relative order of rows comparing equal is
undefined.  `IsOrderByTotalPointsDesc grouped out` is exactly that
guarantee for the driver-performance query; the executable
`driverPerfMain` fixes one admissible output. -/

def SortedByTotalPointsDesc (l : List DriverPerfRow) : Prop :=
  l.Pairwise (fun a b => b.total_points ≤ a.total_points)

def IsOrderByTotalPointsDesc (input output : List DriverPerfRow) : Prop :=
  output.Perm input ∧ SortedByTotalPointsDesc output

/-- Stability of ties w.r.t. the order the grouped rows were produced in:
any two rows with equal totals that occur in this relative order in the
input occur in the same relative order in the output. -/
def TieStable (input output : List DriverPerfRow) : Prop :=
  ∀ a b : DriverPerfRow, a.total_points = b.total_points →
    [a, b].Sublist input → [a, b].Sublist output

/-! Generic lemmas about the ORDER BY and GROUP BY helpers. -/

theorem insertLe_perm {α : Type} (le : α → α → Bool) (x : α) (l : List α) :
    (insertLe le x l).Perm (x :: l) := by
  induction l with
  | nil => exact List.Perm.refl _
  | cons y ys ih =>
    unfold insertLe
    by_cases h : le y x = true
    · rw [if_pos h]
      exact (ih.cons y).trans (List.Perm.swap x y ys)
    · rw [if_neg h]

theorem sortByLe_perm {α : Type} (le : α → α → Bool) (l : List α) :
    (sortByLe le l).Perm l := by
  induction l with
  | nil => exact List.Perm.refl _
  | cons x xs ih => exact (insertLe_perm le x (sortByLe le xs)).trans (ih.cons x)

theorem mem_sortByLe {α : Type} (le : α → α → Bool) (l : List α) (a : α) :
    a ∈ sortByLe le l ↔ a ∈ l :=
  (sortByLe_perm le l).mem_iff

theorem insertLe_pairwise {α : Type} (le : α → α → Bool)
    (htot : ∀ a b, le a b = true ∨ le b a = true)
    (htrans : ∀ a b c, le a b = true → le b c = true → le a c = true)
    (x : α) (l : List α) (h : l.Pairwise (fun a b => le a b = true)) :
    (insertLe le x l).Pairwise (fun a b => le a b = true) := by
  induction l with
  | nil => simp [insertLe]
  | cons y ys ih =>
    rcases List.pairwise_cons.mp h with ⟨hy, hys⟩
    unfold insertLe
    by_cases hxy : le y x = true
    · rw [if_pos hxy]
      refine List.pairwise_cons.mpr ⟨?_, ih hys⟩
      intro z hz
      rcases List.mem_cons.mp ((insertLe_perm le x ys).mem_iff.mp hz) with hzx | hzys
      · exact hzx ▸ hxy
      · exact hy z hzys
    · rw [if_neg hxy]
      have hxley : le x y = true := (htot x y).resolve_right hxy
      refine List.pairwise_cons.mpr ⟨?_, h⟩
      intro z hz
      rcases List.mem_cons.mp hz with hzy | hzys
      · exact hzy ▸ hxley
      · exact htrans x y z hxley (hy z hzys)

theorem sortByLe_pairwise {α : Type} (le : α → α → Bool)
    (htot : ∀ a b, le a b = true ∨ le b a = true)
    (htrans : ∀ a b c, le a b = true → le b c = true → le a c = true)
    (l : List α) :
    (sortByLe le l).Pairwise (fun a b => le a b = true) := by
  induction l with
  | nil => simp [sortByLe]
  | cons x xs ih => exact insertLe_pairwise le htot htrans x _ ih

theorem mem_dedupFirst {α : Type} [DecidableEq α] (l : List α) (a : α) :
    a ∈ dedupFirst l ↔ a ∈ l := by
  induction l with
  | nil => simp [dedupFirst]
  | cons x xs ih =>
    simp only [dedupFirst, List.mem_cons, List.mem_filter]
    constructor
    · rintro (rfl | ⟨hmem, _⟩)
      · exact Or.inl rfl
      · exact Or.inr (ih.mp hmem)
    · rintro (rfl | hxs)
      · exact Or.inl rfl
      · by_cases hax : a = x
        · exact Or.inl hax
        · exact Or.inr ⟨ih.mpr hxs, by simpa using hax⟩

theorem nodup_dedupFirst {α : Type} [DecidableEq α] (l : List α) :
    (dedupFirst l).Nodup := by
  induction l with
  | nil => simp [dedupFirst]
  | cons x xs ih =>
    refine List.nodup_cons.mpr ⟨?_, ih.filter _⟩
    intro hmem
    exact (by simpa using (List.mem_filter.mp hmem).2 : ¬ x = x) rfl

/-! Membership characterizations of the aggregate outputs. -/

theorem mem_driverPerfJoin (db : DB) (j : DriverJoinRow) :
    j ∈ driverPerfJoin db ↔
      j.rr ∈ db.race_results ∧ j.d ∈ db.drivers ∧
        j.d.driver_id = j.rr.driver_id ∧ j.c ∈ db.constructors ∧
        j.c.constructor_id = j.rr.constructor_id ∧ j.rr.position ≠ none := by
  obtain ⟨rr, d, c⟩ := j
  simp only [driverPerfJoin, List.mem_filter, List.mem_flatMap, List.mem_map,
    List.mem_filter, DriverJoinRow.mk.injEq]
  constructor
  · rintro ⟨⟨rr', hrr', d', ⟨hd', hdid⟩, c', ⟨hc', hcid⟩, rfl, rfl, rfl⟩, hpos⟩
    exact ⟨hrr', hd', of_decide_eq_true hdid, hc', of_decide_eq_true hcid,
      by simpa using hpos⟩
  · rintro ⟨hrr, hd, hdid, hc, hcid, hpos⟩
    exact ⟨⟨rr, hrr, d, ⟨hd, decide_eq_true hdid⟩, c, ⟨hc, decide_eq_true hcid⟩,
      rfl, rfl, rfl⟩, by simpa using hpos⟩

theorem mem_driverPerf_iff (db : DB) (row : DriverPerfRow) :
    row ∈ get_driver_performance_metrics db ↔
      ∃ k ∈ driverPerfKeys db,
        row = consLookup (consistencyQuery db) (driverAgg (driverPerfJoin db) k) := by
  simp only [get_driver_performance_metrics, mergeConsistency, List.mem_map,
    driverPerfMain, mem_sortByLe, driverPerfGrouped, List.mem_map]
  constructor
  · rintro ⟨r, ⟨k, hk, rfl⟩, rfl⟩
    exact ⟨k, hk, rfl⟩
  · rintro ⟨k, hk, rfl⟩
    exact ⟨driverAgg (driverPerfJoin db) k, ⟨k, hk, rfl⟩, rfl⟩

theorem mem_constructorPerfJoin (db : DB) (j : ConstructorJoinRow) :
    j ∈ constructorPerfJoin db ↔
      j.c ∈ db.constructors ∧ j.rr ∈ db.race_results ∧
        j.rr.constructor_id = j.c.constructor_id ∧ j.rr.position ≠ none := by
  obtain ⟨c, rr⟩ := j
  simp only [constructorPerfJoin, List.mem_filter, List.mem_flatMap, List.mem_map,
    List.mem_filter, ConstructorJoinRow.mk.injEq]
  constructor
  · rintro ⟨⟨c', hc', rr', ⟨hrr', hcid⟩, rfl, rfl⟩, hpos⟩
    exact ⟨hc', hrr', of_decide_eq_true hcid, by simpa using hpos⟩
  · rintro ⟨hc, hrr, hcid, hpos⟩
    exact ⟨⟨c, hc, rr, ⟨hrr, decide_eq_true hcid⟩, rfl, rfl⟩, by simpa using hpos⟩

theorem mem_constructorPerf_iff (db : DB) (row : ConstructorPerfRow) :
    row ∈ get_constructor_performance db ↔
      ∃ k ∈ constructorPerfKeys db,
        row = constructorAgg (constructorPerfJoin db) k := by
  simp only [get_constructor_performance, mem_sortByLe, constructorPerfGrouped,
    List.mem_map]
  constructor
  · rintro ⟨k, hk, rfl⟩
    exact ⟨k, hk, rfl⟩
  · rintro ⟨k, hk, rfl⟩
    exact ⟨k, hk, rfl⟩

/-! Counter inequalities shared by the driver and constructor aggregates. -/

theorem posLe_mono {o : Option Int} {k k2 : Int} (hk : k ≤ k2)
    (h : posLe o k = true) : posLe o k2 = true := by
  cases o with
  | none => simp [posLe] at h
  | some p =>
    simp only [posLe, decide_eq_true_eq] at h ⊢
    omega

theorem driverAgg_counts (rows : List DriverJoinRow) (k : DriverKey)
    (hk : k ∈ dedupFirst (rows.map driverKeyOf)) :
    (driverAgg rows k).wins ≤ (driverAgg rows k).podiums ∧
    (driverAgg rows k).podiums ≤ (driverAgg rows k).points_finishes ∧
    (driverAgg rows k).points_finishes ≤ (driverAgg rows k).races_completed ∧
    1 ≤ (driverAgg rows k).races_completed := by
  obtain ⟨j, hj, hjk⟩ := List.mem_map.mp ((mem_dedupFirst _ _).mp hk)
  simp only [driverAgg]
  refine ⟨?_, ?_, ?_, ?_⟩
  · refine List.countP_mono_left (fun x _ hx => ?_)
    have : x.rr.position = some 1 := of_decide_eq_true hx
    simp [posLe, this]
  · exact List.countP_mono_left (fun x _ hx => posLe_mono (by omega) hx)
  · exact List.countP_le_length _
  · have : j ∈ rows.filter (fun j2 => driverKeyOf j2 = k) :=
      List.mem_filter.mpr ⟨hj, decide_eq_true hjk⟩
    exact List.length_pos.mpr (List.ne_nil_of_mem this)

theorem constructorAgg_counts (rows : List ConstructorJoinRow) (k : ConstructorKey)
    (hk : k ∈ dedupFirst (rows.map constructorKeyOf)) :
    (constructorAgg rows k).wins ≤ (constructorAgg rows k).podiums ∧
    (constructorAgg rows k).podiums ≤ (constructorAgg rows k).points_finishes ∧
    (constructorAgg rows k).points_finishes ≤ (constructorAgg rows k).total_entries ∧
    1 ≤ (constructorAgg rows k).total_entries := by
  obtain ⟨j, hj, hjk⟩ := List.mem_map.mp ((mem_dedupFirst _ _).mp hk)
  simp only [constructorAgg]
  refine ⟨?_, ?_, ?_, ?_⟩
  · refine List.countP_mono_left (fun x _ hx => ?_)
    have : x.rr.position = some 1 := of_decide_eq_true hx
    simp [posLe, this]
  · exact List.countP_mono_left (fun x _ hx => posLe_mono (by omega) hx)
  · exact List.countP_le_length _
  · have : j ∈ rows.filter (fun j2 => constructorKeyOf j2 = k) :=
      List.mem_filter.mpr ⟨hj, decide_eq_true hjk⟩
    exact List.length_pos.mpr (List.ne_nil_of_mem this)

/-- C10. In every row of the driver performance metrics output and of the
constructor performance output, the counters are naturals (hence
nonnegative) and satisfy `wins ≤ podiums ≤ points_finishes ≤` races
completed (`total_entries` for constructors), with the races-completed
count at least 1: all counters count over the same non-empty group of
non-null-position result rows. -/
theorem driver_and_constructor_counter_chain (db : DB) :
    (∀ row ∈ get_driver_performance_metrics db,
      row.wins ≤ row.podiums ∧ row.podiums ≤ row.points_finishes ∧
      row.points_finishes ≤ row.races_completed ∧ 1 ≤ row.races_completed) ∧
    (∀ row ∈ get_constructor_performance db,
      row.wins ≤ row.podiums ∧ row.podiums ≤ row.points_finishes ∧
      row.points_finishes ≤ row.total_entries ∧ 1 ≤ row.total_entries) := by
  constructor
  · intro row hrow
    obtain ⟨k, hk, rfl⟩ := (mem_driverPerf_iff db row).mp hrow
    simpa [consLookup] using driverAgg_counts (driverPerfJoin db) k hk
  · intro row hrow
    obtain ⟨k, hk, rfl⟩ := (mem_constructorPerf_iff db row).mp hrow
    exact constructorAgg_counts (constructorPerfJoin db) k hk

/-- Arithmetic facts about a percentage `p / r * 100` of naturals with
`p ≤ r` and `r ≥ 1`. -/
theorem rate_bounds (p r : Nat) (hpr : p ≤ r) (hr : 1 ≤ r) :
    (p : ℚ) / (r : ℚ) * 100 = 100 * (p : ℚ) / (r : ℚ) ∧
    0 ≤ (p : ℚ) / (r : ℚ) * 100 ∧ (p : ℚ) / (r : ℚ) * 100 ≤ 100 := by
  have hr0 : (0 : ℚ) < (r : ℚ) := by exact_mod_cast hr
  have hpq : (p : ℚ) ≤ (r : ℚ) := by exact_mod_cast hpr
  refine ⟨by ring, ?_, ?_⟩
  · have := div_nonneg (by positivity : (0:ℚ) ≤ (p:ℚ)) (le_of_lt hr0)
    linarith
  · have hdiv : (p : ℚ) / (r : ℚ) ≤ 1 := (div_le_one hr0).mpr hpq
    linarith

/-- C4. For every row of the driver performance metrics output,
`podium_rate = 100 × podiums / races_completed`, and likewise `win_rate`
and `points_rate` with `wins` and `points_finishes`; each of the three
rates lies in [0, 100].  (SQL arithmetic is modelled exactly over ℚ; the
source computes the same expressions in floating point.) -/
theorem driver_rates_formula_and_bounds (db : DB) (row : DriverPerfRow)
    (h : row ∈ get_driver_performance_metrics db) :
    row.podium_rate = 100 * (row.podiums : ℚ) / (row.races_completed : ℚ) ∧
    0 ≤ row.podium_rate ∧ row.podium_rate ≤ 100 ∧
    row.win_rate = 100 * (row.wins : ℚ) / (row.races_completed : ℚ) ∧
    0 ≤ row.win_rate ∧ row.win_rate ≤ 100 ∧
    row.points_rate = 100 * (row.points_finishes : ℚ) / (row.races_completed : ℚ) ∧
    0 ≤ row.points_rate ∧ row.points_rate ≤ 100 := by
  obtain ⟨k, hk, rfl⟩ := (mem_driverPerf_iff db row).mp h
  obtain ⟨hwp, hpf, hfr, hr1⟩ := driverAgg_counts (driverPerfJoin db) k hk
  set r0 := driverAgg (driverPerfJoin db) k with hr0
  have hfields :
      (consLookup (consistencyQuery db) r0).podiums = r0.podiums ∧
      (consLookup (consistencyQuery db) r0).wins = r0.wins ∧
      (consLookup (consistencyQuery db) r0).points_finishes = r0.points_finishes ∧
      (consLookup (consistencyQuery db) r0).races_completed = r0.races_completed ∧
      (consLookup (consistencyQuery db) r0).podium_rate = r0.podium_rate ∧
      (consLookup (consistencyQuery db) r0).win_rate = r0.win_rate ∧
      (consLookup (consistencyQuery db) r0).points_rate = r0.points_rate :=
    ⟨rfl, rfl, rfl, rfl, rfl, rfl, rfl⟩
  obtain ⟨e1, e2, e3, e4, e5, e6, e7⟩ := hfields
  rw [e1, e2, e3, e4, e5, e6, e7]
  have hpodium : r0.podium_rate = (r0.podiums : ℚ) / (r0.races_completed : ℚ) * 100 := rfl
  have hwin : r0.win_rate = (r0.wins : ℚ) / (r0.races_completed : ℚ) * 100 := rfl
  have hpoints : r0.points_rate =
      (r0.points_finishes : ℚ) / (r0.races_completed : ℚ) * 100 := rfl
  obtain ⟨f1, f2, f3⟩ := rate_bounds r0.podiums r0.races_completed (le_trans hpf hfr) hr1
  obtain ⟨g1, g2, g3⟩ :=
    rate_bounds r0.wins r0.races_completed (le_trans hwp (le_trans hpf hfr)) hr1
  obtain ⟨i1, i2, i3⟩ := rate_bounds r0.points_finishes r0.races_completed hfr hr1
  rw [hpodium, hwin, hpoints]
  exact ⟨f1, f2, f3, g1, g2, g3, i1, i2, i3⟩

/-- C7 (amended). The rows of the driver performance metrics output are
sorted by `total_points` in descending order.  (The relative order of rows
with equal `total_points` is left unspecified by SQLite's ORDER BY and is
therefore not part of the contract; see the counterexample to the
stability half of the original claim.) -/
theorem driverPerf_sorted_by_total_points_desc (db : DB) :
    (get_driver_performance_metrics db).Pairwise
      (fun a b => b.total_points ≤ a.total_points) := by
  have hsorted := sortByLe_pairwise
    (fun a b : DriverPerfRow => decide (b.total_points ≤ a.total_points))
    (fun a b => by
      rcases le_total b.total_points a.total_points with h | h
      · exact Or.inl (decide_eq_true h)
      · exact Or.inr (decide_eq_true h))
    (fun a b c h1 h2 =>
      decide_eq_true (le_trans (of_decide_eq_true h2) (of_decide_eq_true h1)))
    (driverPerfGrouped db)
  refine List.Pairwise.map (consLookup (consistencyQuery db))
    (fun a b h => ?_) hsorted
  exact of_decide_eq_true h

/-- C1 (amended). Under the store's integrity invariants (driver ids are
unique; every result row references an existing driver and constructor),
the driver performance metrics output has pairwise-distinct
`(driver_id, constructor)` pairs — one row per driver-and-constructor
combination, not per driver — and a driver id appears in the output if and
only if that driver has at least one race result with a non-null position.
Qualifying results play no role: the query never joins
`qualifying_results`. -/
theorem driverPerf_rows_per_driver_constructor (db : DB)
    (hD : (db.drivers.map Driver.driver_id).Nodup)
    (hRI : ∀ rr ∈ db.race_results,
      (∃ d ∈ db.drivers, d.driver_id = rr.driver_id) ∧
      (∃ c ∈ db.constructors, c.constructor_id = rr.constructor_id)) :
    ((get_driver_performance_metrics db).map
        (fun r => (r.driver_id, r.constructor_name))).Nodup ∧
    ∀ did : Int,
      (∃ row ∈ get_driver_performance_metrics db, row.driver_id = did) ↔
      (∃ rr ∈ db.race_results, rr.driver_id = did ∧ rr.position ≠ none) := by
  constructor
  · have hmapeq : (get_driver_performance_metrics db).map
        (fun r => (r.driver_id, r.constructor_name)) =
        (driverPerfMain db).map (fun r => (r.driver_id, r.constructor_name)) := by
      simp only [get_driver_performance_metrics, mergeConsistency, List.map_map]
      rfl
    rw [hmapeq]
    have hperm : ((driverPerfMain db).map
        (fun r => (r.driver_id, r.constructor_name))).Perm
        ((driverPerfGrouped db).map (fun r => (r.driver_id, r.constructor_name))) :=
      (sortByLe_perm _ _).map _
    refine hperm.nodup_iff.mpr ?_
    have hkeys : (driverPerfGrouped db).map
        (fun r => (r.driver_id, r.constructor_name)) =
        (driverPerfKeys db).map (fun k => (k.driver_id, k.constructor_name)) := by
      simp only [driverPerfGrouped, List.map_map]
      rfl
    rw [hkeys]
    refine List.Nodup.map_on ?_ (nodup_dedupFirst _)
    intro k1 hk1 k2 hk2 hpair
    obtain ⟨j1, hj1, hj1k⟩ := List.mem_map.mp ((mem_dedupFirst _ _).mp hk1)
    obtain ⟨j2, hj2, hj2k⟩ := List.mem_map.mp ((mem_dedupFirst _ _).mp hk2)
    obtain ⟨hid, hcname⟩ := Prod.mk.injEq .. ▸ hpair
    have hd1 := ((mem_driverPerfJoin db j1).mp hj1).2.1
    have hd2 := ((mem_driverPerfJoin db j2).mp hj2).2.1
    have hdid : j1.d.driver_id = j2.d.driver_id := by
      rw [← hj1k, ← hj2k] at hid
      exact hid
    have hdeq : j1.d = j2.d :=
      List.inj_on_of_nodup_map hD hd1 hd2 hdid
    rw [← hj1k, ← hj2k]
    rw [← hj1k, ← hj2k] at hcname
    simp only [driverKeyOf] at hcname
    simp [driverKeyOf, DriverKey.mk.injEq, hdeq, hcname]
  · intro did
    constructor
    · rintro ⟨row, hrow, hdid⟩
      obtain ⟨k, hk, rfl⟩ := (mem_driverPerf_iff db row).mp hrow
      obtain ⟨j, hj, hjk⟩ := List.mem_map.mp ((mem_dedupFirst _ _).mp hk)
      obtain ⟨hrr, _, hdidj, _, _, hpos⟩ := (mem_driverPerfJoin db j).mp hj
      refine ⟨j.rr, hrr, ?_, hpos⟩
      have : (consLookup (consistencyQuery db)
          (driverAgg (driverPerfJoin db) k)).driver_id = k.driver_id := rfl
      rw [this] at hdid
      rw [← hdid, ← hjk]
      exact hdidj.symm
    · rintro ⟨rr, hrr, hdid, hpos⟩
      obtain ⟨⟨d, hd, hddid⟩, ⟨c, hc, hccid⟩⟩ := hRI rr hrr
      have hj : (⟨rr, d, c⟩ : DriverJoinRow) ∈ driverPerfJoin db :=
        (mem_driverPerfJoin db ⟨rr, d, c⟩).mpr ⟨hrr, hd, hddid, hc, hccid, hpos⟩
      have hk : driverKeyOf ⟨rr, d, c⟩ ∈ driverPerfKeys db :=
        (mem_dedupFirst _ _).mpr (List.mem_map.mpr ⟨_, hj, rfl⟩)
      refine ⟨consLookup (consistencyQuery db)
          (driverAgg (driverPerfJoin db) (driverKeyOf ⟨rr, d, c⟩)),
        (mem_driverPerf_iff db _).mpr ⟨_, hk, rfl⟩, ?_⟩
      show (driverKeyOf ⟨rr, d, c⟩).driver_id = did
      rw [show (driverKeyOf ⟨rr, d, c⟩).driver_id = d.driver_id from rfl, hddid, hdid]

/-! Championship progression lemmas. -/

theorem mem_champJoin (db : DB) (j : ChampJoinRow) (h : j ∈ champJoin db) :
    j.r ∈ db.races ∧ j.rr ∈ db.race_results ∧ j.rr.race_id = j.r.race_id ∧
      j.d ∈ db.drivers ∧ j.d.driver_id = j.rr.driver_id := by
  obtain ⟨r, rr, d⟩ := j
  simp only [champJoin, List.mem_flatMap, List.mem_map, List.mem_filter,
    ChampJoinRow.mk.injEq] at h
  obtain ⟨r', hr', rr', ⟨hrr', hrid⟩, d', ⟨hd', hdid⟩, rfl, rfl, rfl⟩ := h
  exact ⟨hr', hrr', of_decide_eq_true hrid, hd', of_decide_eq_true hdid⟩

theorem champRunning_src (l : List ChampJoinRow) (acc : ℚ) :
    ∀ row ∈ champRunning l acc, ∃ j ∈ l,
      row.driver_id = j.d.driver_id ∧ row.round = j.r.round := by
  induction l generalizing acc with
  | nil => intro row h; simp [champRunning] at h
  | cons j js ih =>
    intro row h
    rcases List.mem_cons.mp h with rfl | htail
    · exact ⟨j, List.mem_cons_self j js, rfl, rfl⟩
    · obtain ⟨j2, hj2, h1, h2⟩ := ih (acc + j.rr.points) row htail
      exact ⟨j2, List.mem_cons_of_mem j hj2, h1, h2⟩

theorem champRunning_cum (l : List ChampJoinRow) (acc : ℚ)
    (hlt : l.Pairwise (fun a b => a.r.round < b.r.round)) :
    ∀ row ∈ champRunning l acc,
      row.cumulative_points = acc +
        ((l.filter (fun j => j.r.round ≤ row.round)).map (fun j => j.rr.points)).sum := by
  induction l generalizing acc with
  | nil => intro row h; simp [champRunning] at h
  | cons j js ih =>
    rcases List.pairwise_cons.mp hlt with ⟨hj, hjs⟩
    intro row h
    rcases List.mem_cons.mp h with rfl | htail
    · have hfil : js.filter (fun j2 => j2.r.round ≤ j.r.round) = [] := by
        refine List.filter_eq_nil_iff.mpr ?_
        intro b hb hle
        exact absurd (of_decide_eq_true hle) (not_le.mpr (hj b hb))
      simp only [List.filter_cons]
      have hcond : (decide (j.r.round ≤
          ({ driver_id := j.d.driver_id, round := j.r.round, race_name := j.r.name,
             date := j.r.date,
             driver_name := j.d.forename ++ " " ++ j.d.surname,
             race_points := j.rr.points,
             cumulative_points := acc + j.rr.points : ChampRow }).round)) = true :=
        decide_eq_true le_rfl
      rw [hcond]
      simp [hfil]
    · obtain ⟨j2, hj2, _, hround⟩ := champRunning_src js (acc + j.rr.points) row htail
      have hjround : j.r.round ≤ row.round := by
        rw [hround]
        exact le_of_lt (hj j2 hj2)
      have := ih (acc + j.rr.points) hjs row htail
      simp only [List.filter_cons, decide_eq_true hjround]
      simp only [if_true, List.map_cons, List.sum_cons]
      rw [this]
      ring

/-- Sums of nonnegative points over a filter grow with the round bound. -/
theorem sum_filter_round_mono (l : List ChampJoinRow)
    (hpts : ∀ j ∈ l, 0 ≤ j.rr.points) (n1 n2 : Int) (h : n1 ≤ n2) :
    ((l.filter (fun j => j.r.round ≤ n1)).map (fun j => j.rr.points)).sum ≤
    ((l.filter (fun j => j.r.round ≤ n2)).map (fun j => j.rr.points)).sum := by
  induction l with
  | nil => simp
  | cons j js ih =>
    have hj0 : 0 ≤ j.rr.points := hpts j (List.mem_cons_self j js)
    have ihs := ih (fun x hx => hpts x (List.mem_cons_of_mem j hx))
    simp only [List.filter_cons]
    by_cases h1 : j.r.round ≤ n1
    · have h2 : j.r.round ≤ n2 := le_trans h1 h
      rw [decide_eq_true h1, decide_eq_true h2]
      simp only [if_true, List.map_cons, List.sum_cons]
      linarith
    · by_cases h2 : j.r.round ≤ n2
      · rw [decide_eq_false h1, decide_eq_true h2]
        simp only [Bool.false_eq_true, if_false, if_true, List.map_cons, List.sum_cons]
        linarith
      · rw [decide_eq_false h1, decide_eq_false h2]
        simp only [Bool.false_eq_true, if_false]
        exact ihs

/-- Sortedness and distinctness of rounds give a strictly increasing
window order on a partition. -/
theorem champSorted_pairwise_lt (db : DB) (did : Int)
    (hnodup : ((champPartition db did).map (fun j => j.r.round)).Nodup) :
    (sortByLe (fun a b => a.r.round ≤ b.r.round)
        (champPartition db did)).Pairwise (fun a b => a.r.round < b.r.round) := by
  have hperm := sortByLe_perm
    (fun a b : ChampJoinRow => decide (a.r.round ≤ b.r.round)) (champPartition db did)
  have hle := sortByLe_pairwise
    (fun a b : ChampJoinRow => decide (a.r.round ≤ b.r.round))
    (fun a b => by
      rcases le_total a.r.round b.r.round with h | h
      · exact Or.inl (decide_eq_true h)
      · exact Or.inr (decide_eq_true h))
    (fun a b c h1 h2 =>
      decide_eq_true (le_trans (of_decide_eq_true h1) (of_decide_eq_true h2)))
    (champPartition db did)
  have hnodup2 : ((sortByLe (fun a b : ChampJoinRow => decide (a.r.round ≤ b.r.round))
      (champPartition db did)).map (fun j => j.r.round)).Nodup :=
    ((hperm.map (fun j => j.r.round)).nodup_iff).mpr hnodup
  have hne := List.pairwise_map.mp hnodup2
  exact (hle.and hne).imp (fun h =>
    lt_of_le_of_ne (of_decide_eq_true h.1) h.2)

theorem mem_champ_partitionRows (db : DB) (row : ChampRow)
    (h : row ∈ get_championship_progression db) :
    row ∈ champPartitionRows db row.driver_id := by
  rw [get_championship_progression, mem_sortByLe] at h
  obtain ⟨did, _, hrow⟩ := List.mem_flatMap.mp h
  obtain ⟨j, hj, hdid, _⟩ :=
    champRunning_src _ 0 row hrow
  have hjp : j ∈ champPartition db did :=
    (mem_sortByLe _ _ j).mp hj
  have : j.d.driver_id = did :=
    of_decide_eq_true (List.mem_filter.mp hjp).2
  rw [show row.driver_id = did from hdid.trans this]
  exact hrow

/-- The cumulative-points identity over one partition with pairwise
distinct rounds. -/
theorem champ_cum_eq_sum (db : DB) (row : ChampRow)
    (h : row ∈ champPartitionRows db row.driver_id)
    (hnodup : ((champPartition db row.driver_id).map (fun j => j.r.round)).Nodup) :
    row.cumulative_points =
      (((champPartition db row.driver_id).filter
          (fun j => j.r.round ≤ row.round)).map (fun j => j.rr.points)).sum := by
  have hlt := champSorted_pairwise_lt db row.driver_id hnodup
  have hcum := champRunning_cum _ 0 hlt row h
  rw [hcum, zero_add]
  exact (((sortByLe_perm _ _).filter _).map _).sum_eq

/-- C2 (amended). When each of a driver's result rows lies at a distinct
round number (e.g. the store holds a single season), the championship
progression's `cumulative_points` at a row equals the sum of that driver's
race points over all their rows with `round ≤` that row's round, and per
driver the cumulative value is non-decreasing in the round (given the
store invariant `points ≥ 0`).  With duplicated round numbers across
seasons the windowed sum orders only by `round`, so rows at a tied round
receive distinct running totals and the identity fails (see the
counterexample). -/
theorem championship_cumulative_points (db : DB) :
    (∀ row ∈ get_championship_progression db,
      ((champPartition db row.driver_id).map (fun j => j.r.round)).Nodup →
      row.cumulative_points =
        (((champPartition db row.driver_id).filter
            (fun j => j.r.round ≤ row.round)).map (fun j => j.rr.points)).sum) ∧
    (∀ r1 ∈ get_championship_progression db,
      ∀ r2 ∈ get_championship_progression db,
      r1.driver_id = r2.driver_id →
      ((champPartition db r1.driver_id).map (fun j => j.r.round)).Nodup →
      (∀ rr ∈ db.race_results, 0 ≤ rr.points) →
      r1.round ≤ r2.round →
      r1.cumulative_points ≤ r2.cumulative_points) := by
  constructor
  · intro row hrow hnodup
    exact champ_cum_eq_sum db row (mem_champ_partitionRows db row hrow) hnodup
  · intro r1 h1 r2 h2 hdid hnodup hpts hround
    have e1 := champ_cum_eq_sum db r1 (mem_champ_partitionRows db r1 h1) hnodup
    have e2 := champ_cum_eq_sum db r2 (mem_champ_partitionRows db r2 h2)
      (by rw [← hdid]; exact hnodup)
    rw [e1, e2, ← hdid]
    refine sum_filter_round_mono (champPartition db r1.driver_id) ?_ r1.round r2.round hround
    intro j hj
    have hjoin : j ∈ champJoin db := (List.mem_filter.mp hj).1
    exact hpts j.rr (mem_champJoin db j hjoin).2.1

/-! Head-to-head lemmas. -/

theorem mem_h2hJoin_src (db : DB) (a b : Int) (row : H2HRow)
    (h : row ∈ h2hJoin db a b) :
    ∃ r ∈ db.races, ∃ rr1 ∈ db.race_results, ∃ rr2 ∈ db.race_results,
      rr1.race_id = r.race_id ∧ rr2.race_id = r.race_id ∧
      rr1.driver_id = a ∧ rr2.driver_id = b ∧
      ∃ p1 p2 : Int, rr1.position = some p1 ∧ rr2.position = some p2 ∧
        row.driver1_position = p1 ∧ row.driver2_position = p2 ∧
        row.winner = (if p1 < p2 then 1 else if p1 > p2 then 2 else 0) := by
  simp only [h2hJoin, List.mem_flatMap, List.mem_filter, List.mem_filterMap] at h
  obtain ⟨r, hr, rr1, ⟨hrr1, hcond1⟩, rr2, ⟨hrr2, hcond2⟩, d1, ⟨hd1, _⟩,
    d2, ⟨hd2, _⟩, hmatch⟩ := h
  obtain ⟨hrid1, hdid1⟩ := of_decide_eq_true hcond1
  obtain ⟨hrid2, hdid2⟩ := of_decide_eq_true hcond2
  refine ⟨r, hr, rr1, hrr1, rr2, hrr2, hrid1, hrid2, hdid1, hdid2, ?_⟩
  cases hp1 : rr1.position with
  | none => rw [hp1] at hmatch; simp at hmatch
  | some p1 =>
    cases hp2 : rr2.position with
    | none => rw [hp1, hp2] at hmatch; simp at hmatch
    | some p2 =>
      rw [hp1, hp2] at hmatch
      simp only [Option.some.injEq] at hmatch
      refine ⟨p1, p2, rfl, rfl, ?_, ?_, ?_⟩ <;> rw [← hmatch]

theorem countP_winner_split (l : List H2HRow)
    (h : ∀ x ∈ l, x.winner = 1 ∨ x.winner = 2 ∨ x.winner = 0) :
    l.countP (fun x => x.winner = 1) + l.countP (fun x => x.winner = 2) +
      l.countP (fun x => x.winner = 0) = l.length := by
  induction l with
  | nil => simp
  | cons x xs ih =>
    have hx := h x (List.mem_cons_self x xs)
    have ihs := ih (fun y hy => h y (List.mem_cons_of_mem x hy))
    simp only [List.countP_cons, List.length_cons]
    rcases hx with hx | hx | hx <;> simp [hx] <;> omega

/-- Winner flags of every head-to-head row are 1, 2 or 0. -/
theorem h2h_winner_mem (db : DB) (a b : Int) (row : H2HRow)
    (h : row ∈ h2hJoin db a b) :
    row.winner = 1 ∨ row.winner = 2 ∨ row.winner = 0 := by
  obtain ⟨_, _, _, _, _, _, _, _, _, _, p1, p2, _, _, _, _, hw⟩ :=
    mem_h2hJoin_src db a b row h
  rw [hw]
  rcases lt_trichotomy p1 p2 with hlt | heq | hgt
  · simp [hlt]
  · simp [heq]
  · simp [hgt, not_lt_of_gt hgt]

/-- C3. Every head-to-head row comes from a race where both drivers have a
non-null position; its winner flag is 1 exactly when driver A's position is
strictly lower, 2 exactly when strictly higher, 0 exactly on identical
positions; and any produced summary satisfies
`driver1_wins + driver2_wins + ties = total_races`. -/
theorem h2h_rows_and_summary (db : DB) (a b : Int) :
    (∀ row ∈ (get_head_to_head_comparison db a b).1,
      ∃ r ∈ db.races, ∃ rr1 ∈ db.race_results, ∃ rr2 ∈ db.race_results,
        rr1.race_id = r.race_id ∧ rr2.race_id = r.race_id ∧
        rr1.driver_id = a ∧ rr2.driver_id = b ∧
        ∃ p1 p2 : Int, rr1.position = some p1 ∧ rr2.position = some p2 ∧
          row.driver1_position = p1 ∧ row.driver2_position = p2 ∧
          (row.winner = 1 ↔ p1 < p2) ∧ (row.winner = 2 ↔ p2 < p1) ∧
          (row.winner = 0 ↔ p1 = p2)) ∧
    (∀ s : H2HStats, (get_head_to_head_comparison db a b).2 = some s →
      s.driver1_wins + s.driver2_wins + s.ties = s.total_races) := by
  constructor
  · intro row hrow
    have hjoin : row ∈ h2hJoin db a b := (mem_sortByLe _ _ row).mp hrow
    obtain ⟨r, hr, rr1, hrr1, rr2, hrr2, h1, h2, h3, h4, p1, p2, hp1, hp2,
      hq1, hq2, hw⟩ := mem_h2hJoin_src db a b row hjoin
    refine ⟨r, hr, rr1, hrr1, rr2, hrr2, h1, h2, h3, h4, p1, p2, hp1, hp2,
      hq1, hq2, ?_, ?_, ?_⟩ <;> rw [hw] <;> split_ifs with ha hb <;> omega
  · intro s hs
    simp only [get_head_to_head_comparison] at hs
    set rows := sortByLe (fun x y => x.date ≤ y.date) (h2hJoin db a b) with hrows
    by_cases hemp : rows.isEmpty
    · rw [if_pos hemp] at hs
      exact absurd hs (by simp)
    · rw [if_neg hemp] at hs
      obtain rfl := (Option.some.injEq _ _).mp hs.symm
      show rows.countP (fun x => x.winner = 1) + rows.countP (fun x => x.winner = 2) +
        rows.countP (fun x => x.winner = 0) = rows.length
      refine countP_winner_split rows ?_
      intro x hx
      exact h2h_winner_mem db a b x ((mem_sortByLe _ _ x).mp hx)

/-- C6. For a pair of drivers with no common race in which both have a
non-null-position result, the head-to-head comparison returns an empty
per-race table and the empty summary dict (modelled `none`), and the call
returns normally rather than raising. -/
theorem h2h_empty_when_no_common_race (db : DB) (a b : Int)
    (h : ¬ ∃ r ∈ db.races, ∃ rr1 ∈ db.race_results, ∃ rr2 ∈ db.race_results,
        rr1.race_id = r.race_id ∧ rr2.race_id = r.race_id ∧
        rr1.driver_id = a ∧ rr2.driver_id = b ∧
        rr1.position.isSome = true ∧ rr2.position.isSome = true) :
    (get_head_to_head_comparison db a b).1 = [] ∧
    (get_head_to_head_comparison db a b).2 = none := by
  have hjoin : h2hJoin db a b = [] := by
    rcases hne : h2hJoin db a b with _ | ⟨row, rest⟩
    · rfl
    · exfalso
      have hrow : row ∈ h2hJoin db a b := by rw [hne]; exact List.mem_cons_self _ _
      obtain ⟨r, hr, rr1, hrr1, rr2, hrr2, h1, h2, h3, h4, p1, p2, hp1, hp2, _⟩ :=
        mem_h2hJoin_src db a b row hrow
      exact h ⟨r, hr, rr1, hrr1, rr2, hrr2, h1, h2, h3, h4,
        by rw [hp1]; rfl, by rw [hp2]; rfl⟩
  constructor
  · show sortByLe _ (h2hJoin db a b) = []
    rw [hjoin]
    rfl
  · show (if (sortByLe (fun x y => x.date ≤ y.date) (h2hJoin db a b)).isEmpty
        then none else some _) = none
    rw [hjoin]
    rfl

/-- C8. When the backing store file does not exist at the path the
constructor resolves, construction fails with the store-not-found error,
and never yields an engine value; the analytics operations all require a
constructed engine, so none can run against a missing store.  The
constructor consults only the filesystem — no query, and no store value,
is involved. -/
theorem init_fails_when_store_missing (fs : FileSystem) (db_path : Option String)
    (ancestors : List String)
    (h : pathExists fs (resolvedDbPath fs db_path ancestors) = false) :
    F1Analytics.init fs db_path ancestors =
      Except.error (AnalyticsError.fileNotFound (resolvedDbPath fs db_path ancestors)) ∧
    ∀ eng : F1Analytics, F1Analytics.init fs db_path ancestors ≠ Except.ok eng := by
  have hinit : F1Analytics.init fs db_path ancestors =
      Except.error (AnalyticsError.fileNotFound (resolvedDbPath fs db_path ancestors)) := by
    simp [F1Analytics.init, h]
  exact ⟨hinit, fun eng hok => by rw [hinit] at hok; exact Except.noConfusion hok⟩

/-- C9. Every analytics operation leaves the backing store unchanged: each
call executes only `select` statements, whose `execStmt` semantics return
the store as-is, so the store component of every call's result equals the
input store. -/
theorem operations_leave_store_unchanged (db : DB) (a b : Int) :
    (driverPerfCall db).1 = db ∧ (constructorPerfCall db).1 = db ∧
    (raceAnalysisCall db).1 = db ∧ (headToHeadCall db a b).1 = db ∧
    (championshipCall db).1 = db ∧ (circuitPerfCall db).1 = db :=
  ⟨rfl, rfl, rfl, rfl, rfl, rfl⟩

/-! Concrete example stores used by the counterexamples and witnesses. -/

def maxD : Driver := ⟨1, "Max", "Verstappen", "VER", "Dutch"⟩
def lewisD : Driver := ⟨2, "Lewis", "Hamilton", "HAM", "British"⟩
def redBull : Constructor := ⟨1, "Red Bull", "Austrian"⟩
def ferrari : Constructor := ⟨2, "Ferrari", "Italian"⟩
def mercedes : Constructor := ⟨3, "Mercedes", "German"⟩
def monza : Circuit := ⟨1, "Monza", "Italy"⟩

/-- One driver, one constructor, two rounds of one season. -/
def exSolo : DB :=
  { drivers := [maxD]
    constructors := [redBull]
    circuits := [monza]
    races := [⟨1, 2023, 1, 1, "GP One", 100⟩, ⟨2, 2023, 2, 1, "GP Two", 107⟩]
    race_results :=
      [⟨1, 1, 1, some 1, some 1, 25, some 30⟩,
       ⟨2, 1, 1, some 2, some 3, 15, none⟩]
    qualifying_results := [⟨1, 1, 1, some 1⟩] }

/-- One driver who scored for two constructors, with zero qualifying
results. -/
def exMulti : DB :=
  { drivers := [maxD]
    constructors := [redBull, ferrari]
    circuits := [monza]
    races := [⟨1, 2023, 1, 1, "GP One", 100⟩, ⟨2, 2023, 2, 1, "GP Two", 107⟩]
    race_results :=
      [⟨1, 1, 1, some 1, some 1, 25, none⟩,
       ⟨2, 1, 2, some 3, some 2, 18, none⟩]
    qualifying_results := [] }

/-- Two drivers with equal total points. -/
def exTie : DB :=
  { drivers := [maxD, lewisD]
    constructors := [redBull]
    circuits := [monza]
    races := [⟨1, 2023, 1, 1, "GP One", 100⟩]
    race_results :=
      [⟨1, 1, 1, some 1, some 1, 10, none⟩,
       ⟨1, 2, 1, some 2, some 2, 10, none⟩]
    qualifying_results := [] }

/-- One driver, two seasons whose races share round number 1. -/
def exSeasons : DB :=
  { drivers := [maxD]
    constructors := [redBull]
    circuits := [monza]
    races := [⟨1, 2022, 1, 1, "GP A", 100⟩, ⟨2, 2023, 1, 1, "GP B", 465⟩]
    race_results :=
      [⟨1, 1, 1, some 1, some 1, 10, none⟩,
       ⟨2, 1, 1, some 1, some 2, 5, none⟩]
    qualifying_results := [] }

/-- One race whose winner (25 points) is listed after the runner-up (18
points) in `race_results`. -/
def exC5 : DB :=
  { drivers := [maxD, lewisD]
    constructors := [redBull, mercedes]
    circuits := [monza]
    races := [⟨1, 2023, 1, 1, "Italian GP", 100⟩]
    race_results :=
      [⟨1, 2, 3, some 3, some 2, 18, none⟩,
       ⟨1, 1, 1, some 1, some 1, 25, none⟩]
    qualifying_results := [] }

/-- Two drivers who never contested the same race. -/
def exApart : DB :=
  { drivers := [maxD, lewisD]
    constructors := [redBull]
    circuits := [monza]
    races := [⟨1, 2023, 1, 1, "GP One", 100⟩, ⟨2, 2023, 2, 1, "GP Two", 107⟩]
    race_results :=
      [⟨1, 1, 1, some 1, some 1, 25, none⟩,
       ⟨2, 2, 1, some 1, some 1, 25, none⟩]
    qualifying_results := [] }

/-- Two drivers sharing one race. -/
def exPair : DB :=
  { drivers := [maxD, lewisD]
    constructors := [redBull, mercedes]
    circuits := [monza]
    races := [⟨1, 2023, 1, 1, "GP One", 100⟩]
    race_results :=
      [⟨1, 1, 1, some 1, some 1, 25, none⟩,
       ⟨1, 2, 3, some 2, some 2, 18, none⟩]
    qualifying_results := [] }

/-- An empty filesystem. -/
def exFS : FileSystem := ⟨[]⟩

/-- C1 (counterexample).  In `exMulti` the single driver (id 1) has race
results for two constructors and no qualifying result at all, yet the
driver performance metrics output contains two rows for them: both halves of the claim fail on the
code (one row per driver, and appearance only with at least one
qualifying result). -/
theorem driverPerf_two_rows_for_one_driver :
    ((get_driver_performance_metrics exMulti).filter
        (fun r => r.driver_id = 1)).length = 2 ∧
    exMulti.qualifying_results = [] := by
  constructor
  · rw [← List.countP_eq_length_filter, get_driver_performance_metrics,
      mergeConsistency, List.countP_map, driverPerfMain,
      (sortByLe_perm _ _).countP_eq]
    decide
  · rfl

def kTie1 : DriverKey := ⟨1, "Max", "Verstappen", "VER", "Dutch", "Red Bull"⟩
def kTie2 : DriverKey := ⟨2, "Lewis", "Hamilton", "HAM", "British", "Red Bull"⟩
def rowTie1 : DriverPerfRow := driverAgg (driverPerfJoin exTie) kTie1
def rowTie2 : DriverPerfRow := driverAgg (driverPerfJoin exTie) kTie2

/-- C7 (counterexample to the stability half).  On `exTie` the grouped
result set is `[rowTie1, rowTie2]` with equal `total_points`; the swapped
list `[rowTie2, rowTie1]` also satisfies everything SQLite's
`ORDER BY total_points DESC` guarantees (`IsOrderByTotalPointsDesc`), yet
it does not preserve the ties' relative input order: tie-stability is not
a property of the code's query. -/
theorem orderBy_ties_not_stable :
    IsOrderByTotalPointsDesc (driverPerfGrouped exTie) [rowTie2, rowTie1] ∧
    ¬ TieStable (driverPerfGrouped exTie) [rowTie2, rowTie1] := by
  have hg : driverPerfGrouped exTie = [rowTie1, rowTie2] := rfl
  have htp : rowTie1.total_points = rowTie2.total_points := rfl
  refine ⟨⟨?_, ?_⟩, ?_⟩
  · rw [hg]
    exact List.Perm.swap rowTie1 rowTie2 []
  · exact List.pairwise_cons.mpr
      ⟨fun b hb => by
        rcases List.mem_cons.mp hb with rfl | h
        · exact le_of_eq htp.symm
        · simp at h,
      List.pairwise_singleton _ _⟩
  · intro hstable
    have hsub : [rowTie1, rowTie2].Sublist (driverPerfGrouped exTie) := by
      rw [hg]
    have hbad := hstable rowTie1 rowTie2 htp hsub
    have heq : [rowTie1, rowTie2] = [rowTie2, rowTie1] :=
      hbad.eq_of_length rfl
    have h12 : rowTie1 = rowTie2 := (List.cons.injEq .. ▸ heq).1
    have hid : rowTie1.driver_id = rowTie2.driver_id := congrArg _ h12
    have h1 : rowTie1.driver_id = 1 := rfl
    have h2 : rowTie2.driver_id = 2 := rfl
    rw [h1, h2] at hid
    exact absurd hid (by decide)

/-- The round-1 row of season 2023 in the championship output of
`exSeasons`; its
cumulative value is written `0 + 5` exactly as the running sum produces
it. -/
def c2row : ChampRow := ⟨1, 1, "GP B", 465, "Max Verstappen", 5, 0 + 5⟩

/-- C2 (counterexample).  In `exSeasons` the driver's two races (from two
seasons) share round number 1.  The windowed sum orders the partition only
by round, so the two tied rows get distinct running totals: the output
contains a round-1 row whose `cumulative_points` is 5, while the sum of
the driver's points over rounds 1..1 is 15. -/
theorem championship_round_tie_counterexample :
    c2row ∈ get_championship_progression exSeasons ∧
    c2row.round = 1 ∧ c2row.cumulative_points = 5 ∧
    (((champPartition exSeasons c2row.driver_id).filter
        (fun j => j.r.round ≤ c2row.round)).map (fun j => j.rr.points)).sum = 15 := by
  refine ⟨?_, rfl, by norm_num [c2row], ?_⟩
  · rw [get_championship_progression, mem_sortByLe]
    exact List.mem_cons_self _ _
  · norm_num [champPartition, champJoin, exSeasons, c2row, maxD, redBull, monza]

/-- C5 (code bug).  In `exC5` the race's winner is driver 1 with 25
points, but the runner-up row (18 points) is first in `race_results`.  The
race-analysis output names the winner correctly yet reports
`winner_points = 18`: the SELECT reads the bare `rr.points` (an
unspecified participant row of the group — the model's first joined row)
instead of `winner_data.points`, contradicting the column's own name and
the `winner_data` subquery built for it. -/
theorem race_analysis_winner_points_bug :
    (get_race_analysis exC5).map
        (fun row => (row.race_id, row.winner, row.winner_points)) =
      [(1, some ("Max Verstappen"), some 18)] ∧
    (exC5.race_results.filter (fun rr => rr.position = some 1)).map
        (fun rr => rr.points) = [25] := by
  constructor
  · decide
  · decide

/-! Witness rows for the universally-quantified theorems, built through the
pipeline itself so that membership is definitional. -/

def soloKey : DriverKey := ⟨1, "Max", "Verstappen", "VER", "Dutch", "Red Bull"⟩
def soloPerfRow : DriverPerfRow :=
  consLookup (consistencyQuery exSolo) (driverAgg (driverPerfJoin exSolo) soloKey)
def soloCKey : ConstructorKey := ⟨1, "Red Bull", "Austrian"⟩
def soloConsRow : ConstructorPerfRow :=
  constructorAgg (constructorPerfJoin exSolo) soloCKey

/-- The two championship rows of `exSolo`, with the running sums written
exactly as the window computes them. -/
def soloRow1 : ChampRow := ⟨1, 1, "GP One", 100, "Max Verstappen", 25, 0 + 25⟩
def soloRow2 : ChampRow := ⟨1, 2, "GP Two", 107, "Max Verstappen", 15, 0 + 25 + 15⟩

/-- Witness for C1's amended theorem: its hypotheses are satisfiable (at
`exMulti`, whose driver ids are unique and whose results all reference
existing drivers and constructors). -/
theorem driverPerf_rows_witness :
    ((get_driver_performance_metrics exMulti).map
        (fun r => (r.driver_id, r.constructor_name))).Nodup ∧
    ∀ did : Int,
      (∃ row ∈ get_driver_performance_metrics exMulti, row.driver_id = did) ↔
      (∃ rr ∈ exMulti.race_results, rr.driver_id = did ∧ rr.position ≠ none) :=
  driverPerf_rows_per_driver_constructor exMulti (by decide) (by decide)

/-- Witness for C2's amended theorem at the single-season store `exSolo`:
round-2 cumulative points equal the sum over rounds 1..2, and the
cumulative sequence is non-decreasing from round 1 to round 2. -/
theorem championship_cumulative_witness :
    soloRow2.cumulative_points =
      (((champPartition exSolo soloRow2.driver_id).filter
          (fun j => j.r.round ≤ soloRow2.round)).map (fun j => j.rr.points)).sum ∧
    soloRow1.cumulative_points ≤ soloRow2.cumulative_points := by
  have h1 : soloRow1 ∈ get_championship_progression exSolo := by
    rw [get_championship_progression, mem_sortByLe]
    exact List.mem_cons_self _ _
  have h2 : soloRow2 ∈ get_championship_progression exSolo := by
    rw [get_championship_progression, mem_sortByLe]
    exact List.mem_cons_of_mem _ (List.mem_cons_self _ _)
  exact ⟨(championship_cumulative_points exSolo).1 soloRow2 h2 (by decide),
    (championship_cumulative_points exSolo).2 soloRow1 h1 soloRow2 h2 rfl
      (by decide) (by decide) (by decide)⟩

/-- Witness for C4's theorem at `exSolo`: the membership hypothesis is
satisfied by the single output row. -/
theorem driver_rates_witness :
    soloPerfRow.podium_rate =
      100 * (soloPerfRow.podiums : ℚ) / (soloPerfRow.races_completed : ℚ) ∧
    0 ≤ soloPerfRow.podium_rate ∧ soloPerfRow.podium_rate ≤ 100 ∧
    soloPerfRow.win_rate =
      100 * (soloPerfRow.wins : ℚ) / (soloPerfRow.races_completed : ℚ) ∧
    0 ≤ soloPerfRow.win_rate ∧ soloPerfRow.win_rate ≤ 100 ∧
    soloPerfRow.points_rate =
      100 * (soloPerfRow.points_finishes : ℚ) / (soloPerfRow.races_completed : ℚ) ∧
    0 ≤ soloPerfRow.points_rate ∧ soloPerfRow.points_rate ≤ 100 :=
  driver_rates_formula_and_bounds exSolo soloPerfRow
    ((mem_driverPerf_iff exSolo soloPerfRow).mpr ⟨soloKey, by decide, rfl⟩)

/-- Witness for C6's theorem: in `exApart` drivers 1 and 2 share no race,
and the head-to-head result is the empty table with the empty summary. -/
theorem h2h_empty_witness :
    (get_head_to_head_comparison exApart 1 2).1 = [] ∧
    (get_head_to_head_comparison exApart 1 2).2 = none :=
  h2h_empty_when_no_common_race exApart 1 2 (by decide)

/-- Witness for C8's theorem: on an empty filesystem with an explicit
path, construction fails with the store-not-found error. -/
theorem init_fails_witness :
    F1Analytics.init exFS (some ("/tmp/f1.db")) [] =
      Except.error (AnalyticsError.fileNotFound
        (resolvedDbPath exFS (some ("/tmp/f1.db")) [])) ∧
    ∀ eng : F1Analytics,
      F1Analytics.init exFS (some ("/tmp/f1.db")) [] ≠ Except.ok eng :=
  init_fails_when_store_missing exFS (some ("/tmp/f1.db")) [] (by decide)

/-- Witness for C10's theorem at `exSolo`, for both the driver row and the
constructor row. -/
theorem counter_chain_witness :
    (soloPerfRow.wins ≤ soloPerfRow.podiums ∧
      soloPerfRow.podiums ≤ soloPerfRow.points_finishes ∧
      soloPerfRow.points_finishes ≤ soloPerfRow.races_completed ∧
      1 ≤ soloPerfRow.races_completed) ∧
    (soloConsRow.wins ≤ soloConsRow.podiums ∧
      soloConsRow.podiums ≤ soloConsRow.points_finishes ∧
      soloConsRow.points_finishes ≤ soloConsRow.total_entries ∧
      1 ≤ soloConsRow.total_entries) :=
  ⟨(driver_and_constructor_counter_chain exSolo).1 soloPerfRow
      ((mem_driverPerf_iff exSolo soloPerfRow).mpr ⟨soloKey, by decide, rfl⟩),
    (driver_and_constructor_counter_chain exSolo).2 soloConsRow
      ((mem_constructorPerf_iff exSolo soloConsRow).mpr ⟨soloCKey, by decide, rfl⟩)⟩

def pairRow : H2HRow :=
  ⟨"GP One", 100, "Max Verstappen", 1, 25, "Lewis Hamilton", 2, 18, 1⟩

/-- The summary the head-to-head comparison produces on `exPair` (the
fallback row is unreachable: the table is non-empty). -/
def pairStats : H2HStats :=
  match (get_head_to_head_comparison exPair 1 2).2 with
  | some s => s
  | none => ⟨0, 0, 0, 0, 0, 0, 0, 0⟩

/-- Witness for C3's theorem at `exPair`: the per-race row hypothesis and
the produced-summary hypothesis are both satisfied. -/
theorem h2h_summary_witness :
    (∃ r ∈ exPair.races, ∃ rr1 ∈ exPair.race_results, ∃ rr2 ∈ exPair.race_results,
      rr1.race_id = r.race_id ∧ rr2.race_id = r.race_id ∧
      rr1.driver_id = 1 ∧ rr2.driver_id = 2 ∧
      ∃ p1 p2 : Int, rr1.position = some p1 ∧ rr2.position = some p2 ∧
        pairRow.driver1_position = p1 ∧ pairRow.driver2_position = p2 ∧
        (pairRow.winner = 1 ↔ p1 < p2) ∧ (pairRow.winner = 2 ↔ p2 < p1) ∧
        (pairRow.winner = 0 ↔ p1 = p2)) ∧
    pairStats.driver1_wins + pairStats.driver2_wins + pairStats.ties =
      pairStats.total_races := by
  refine ⟨(h2h_rows_and_summary exPair 1 2).1 pairRow ?_,
    (h2h_rows_and_summary exPair 1 2).2 pairStats ?_⟩
  · exact List.mem_cons_self _ _
  · rfl
